import Mathlib

/-
Verification development for the las-rs whole-file read/write engine
(src/src/file.rs and src/src/macros.rs).  The data model and the write
path are embedded shallowly: pure Lean functions mirror the Rust code,
machine integers become Nat/Int with explicit reductions modulo 2^w where
the source casts, and fallible operations return Except/Option.  Modules
of the repository that are not part of the two source files (point.rs,
header.rs, vlr.rs, scale.rs, the point-format type) are modelled from the
specification, as documented on each such definition.
-/

set_option autoImplicit false

namespace Las

/-- Modelled from the spec: the codec works with IEEE-754 double-precision
values ("double precision" coordinates, scale factors, offsets).  We model
an f64 value as either NaN, an infinity, or an exact rational; finite
arithmetic is exact rational arithmetic (IEEE rounding of intermediate
results is not modelled), while comparisons and the special-value algebra
follow IEEE-754 (NaN is incomparable, opposite infinities sum to NaN). -/
inductive F64 where
  | nan : F64
  | negInf : F64
  | finite (q : ℚ) : F64
  | posInf : F64
deriving DecidableEq

/-- IEEE-754 strict less-than on the model: NaN compares false with
everything, infinities bound all finite values. -/
def F64.lt : F64 → F64 → Bool
  | .nan, _ => false
  | _, .nan => false
  | .negInf, .negInf => false
  | .negInf, _ => true
  | _, .negInf => false
  | .posInf, _ => false
  | .finite _, .posInf => true
  | .finite a, .finite b => decide (a < b)

/-- Addition with the IEEE special-value algebra (finite part exact). -/
def F64.add : F64 → F64 → F64
  | .nan, _ => .nan
  | _, .nan => .nan
  | .posInf, .negInf => .nan
  | .negInf, .posInf => .nan
  | .posInf, _ => .posInf
  | _, .posInf => .posInf
  | .negInf, _ => .negInf
  | _, .negInf => .negInf
  | .finite a, .finite b => .finite (a + b)

/-- Negation. -/
def F64.neg : F64 → F64
  | .nan => .nan
  | .posInf => .negInf
  | .negInf => .posInf
  | .finite q => .finite (-q)

/-- Subtraction, as addition of the negation. -/
def F64.sub (a b : F64) : F64 :=
  F64.add a (F64.neg b)

/-- Multiplication with the IEEE special-value algebra (finite part exact;
infinity times zero is NaN). -/
def F64.mul : F64 → F64 → F64
  | .nan, _ => .nan
  | _, .nan => .nan
  | .posInf, .posInf => .posInf
  | .posInf, .negInf => .negInf
  | .negInf, .posInf => .negInf
  | .negInf, .negInf => .posInf
  | .posInf, .finite b => if b = 0 then .nan else if 0 < b then .posInf else .negInf
  | .finite a, .posInf => if a = 0 then .nan else if 0 < a then .posInf else .negInf
  | .negInf, .finite b => if b = 0 then .nan else if 0 < b then .negInf else .posInf
  | .finite a, .negInf => if a = 0 then .nan else if 0 < a then .negInf else .posInf
  | .finite a, .finite b => .finite (a * b)

/-- Division with the IEEE special-value algebra (finite part exact; a
nonzero finite value divided by zero is a signed infinity, zero by zero is
NaN; the signs of zero are conflated). -/
def F64.div : F64 → F64 → F64
  | .nan, _ => .nan
  | _, .nan => .nan
  | .posInf, .posInf => .nan
  | .posInf, .negInf => .nan
  | .negInf, .posInf => .nan
  | .negInf, .negInf => .nan
  | .posInf, .finite b => if 0 ≤ b then .posInf else .negInf
  | .negInf, .finite b => if 0 ≤ b then .negInf else .posInf
  | .finite _, .posInf => .finite 0
  | .finite _, .negInf => .finite 0
  | .finite a, .finite b =>
    if b = 0 then (if a = 0 then .nan else if 0 < a then .posInf else .negInf)
    else .finite (a / b)

/-- The value of Rust's f64::MAX, the largest finite double:
(2^53 - 1) * 2^971. -/
def f64_max_value : F64 :=
  F64.finite (((2 : ℚ) ^ 53 - 1) * 2 ^ 971)

/-- The value of Rust's f64::MIN, the most negative finite double:
-(2^53 - 1) * 2^971. -/
def f64_min_value : F64 :=
  F64.finite (-(((2 : ℚ) ^ 53 - 1) * 2 ^ 971))

/-- Rounding to the nearest integer with ties away from zero, the
behavior of Rust's f64::round used by the descale path. -/
def round_half_away (q : ℚ) : ℤ :=
  if 0 ≤ q then ⌊q + 1 / 2⌋ else -⌊1 / 2 - q⌋

/-- Modelled from the spec: scale.rs is not among the given source files.
Per section 4.1, descale computes round((value - offset) / scale_factor)
and casts the result to a signed 32-bit integer; the cast saturates at the
i32 bounds (NaN casts to 0), matching Rust's defined float-to-int cast. -/
def descale (value scale_factor offset : F64) : ℤ :=
  match F64.div (F64.sub value offset) scale_factor with
  | .finite q =>
    if 2147483647 < round_half_away q then 2147483647
    else if round_half_away q < -2147483648 then -2147483648
    else round_half_away q
  | .posInf => 2147483647
  | .negInf => -2147483648
  | .nan => 0

/-- Modelled from the spec: scale.rs is not among the given source files.
Per section 4.1, scale computes raw * scale_factor + offset. -/
def scale (raw : ℤ) (scale_factor offset : F64) : F64 :=
  F64.add (F64.mul (F64.finite (raw : ℚ)) scale_factor) offset

/-- Little-endian byte serialization of a signed 32-bit integer (two's
complement, explicit reduction modulo 2^32). -/
def i32_to_le (n : ℤ) : List ℕ :=
  let u := (n % 4294967296).toNat
  [u % 256, u / 256 % 256, u / 65536 % 256, u / 16777216 % 256]

/-- Little-endian byte serialization of an unsigned 16-bit integer. -/
def u16_to_le (n : ℕ) : List ℕ :=
  [n % 256, n / 256 % 256]

/-- Byte holding a signed 8-bit integer (two's complement). -/
def i8_byte (n : ℤ) : ℕ :=
  (n % 256).toNat

/-- Two to an integer power, as an exact rational. -/
def rat_pow2 (e : ℤ) : ℚ :=
  (2 : ℚ) ^ e

/-- Rounding to the nearest integer with ties to even, the rounding used
when fitting a real value into a floating-point mantissa. -/
def rne (q : ℚ) : ℤ :=
  let f := ⌊q⌋
  let r := q - f
  if r < 1 / 2 then f
  else if 1 / 2 < r then f + 1
  else if f % 2 = 0 then f else f + 1

/-- IEEE-754 binary64 bit pattern of an exact rational, rounding to
nearest-even; values beyond the finite range encode as infinity, tiny
values take the subnormal encoding. -/
def ieee_bits_of_rat (q : ℚ) : ℕ :=
  if q = 0 then 0
  else
    let s : ℕ := if q < 0 then 1 else 0
    let a : ℚ := |q|
    let e0 : ℤ := (q.num.natAbs.log2 : ℤ) - (q.den.log2 : ℤ)
    let e1 : ℤ := if rat_pow2 e0 ≤ a then e0 else e0 - 1
    let e2 : ℤ := max e1 (-1022)
    let m0 : ℤ := rne (a * rat_pow2 (52 - e2))
    let m1 : ℤ := if m0 = 2 ^ 53 then 2 ^ 52 else m0
    let e3 : ℤ := if m0 = 2 ^ 53 then e2 + 1 else e2
    if 1023 < e3 then s * 2 ^ 63 + 2047 * 2 ^ 52
    else if m1 < 2 ^ 52 then s * 2 ^ 63 + m1.toNat
    else s * 2 ^ 63 + (e3 + 1023).toNat * 2 ^ 52 + (m1.toNat - 2 ^ 52)

/-- Modelled from the spec: the external byte writer emits the 8
little-endian bytes of the IEEE-754 binary64 encoding of a double.  The
64-bit pattern for the model's special values uses the canonical quiet-NaN
and infinity encodings. -/
def f64_bits : F64 → ℕ
  | .nan => 0x7FF8000000000000
  | .posInf => 0x7FF0000000000000
  | .negInf => 0xFFF0000000000000
  | .finite q => ieee_bits_of_rat q

/-- Little-endian byte serialization of a double. -/
def f64_to_le (t : F64) : List ℕ :=
  let b := f64_bits t
  [b % 256, b / 256 % 256, b / 65536 % 256, b / 16777216 % 256,
   b / 4294967296 % 256, b / 1099511627776 % 256,
   b / 281474976710656 % 256, b / 72057594037927936 % 256]

/-- Modelled from the spec: the point-format code is "a small integer
selecting which optional fields (time, color) a point record carries and
its resulting fixed length", with four recognized codes; code 1 adds GPS
time, code 2 adds color, code 3 adds both. -/
inductive PointDataFormat where
  | format0 : PointDataFormat
  | format1 : PointDataFormat
  | format2 : PointDataFormat
  | format3 : PointDataFormat
deriving DecidableEq

/-- Whether the format declares GPS time. -/
def PointDataFormat.has_time : PointDataFormat → Bool
  | .format1 => true
  | .format3 => true
  | _ => false

/-- Whether the format declares color. -/
def PointDataFormat.has_color : PointDataFormat → Bool
  | .format2 => true
  | .format3 => true
  | _ => false

/-- Fixed point-record length of each format: the 20-byte fixed part of
section 6, plus 8 bytes of GPS time and/or 6 bytes of color. -/
def PointDataFormat.record_length : PointDataFormat → ℕ
  | .format0 => 20
  | .format1 => 28
  | .format2 => 26
  | .format3 => 34

/-- Modelled from the spec: point.rs is not among the given source files.
Fields and ranges follow section 3: return_number and number_of_returns
are 0-7 values (3 bits each), scan_direction is one bit, classification is
a 0-31 value (5 bits), gps_time and the color triple are optional, and
extra_bytes is an optional raw trailing byte sequence.  Defaults give the
all-zero point of Point::new. -/
structure Point where
  x : F64 := F64.finite 0
  y : F64 := F64.finite 0
  z : F64 := F64.finite 0
  intensity : ℕ := 0
  return_number : Fin 8 := 0
  number_of_returns : Fin 8 := 0
  scan_direction : Fin 2 := 0
  edge_of_flight_line : Bool := false
  classification : Fin 32 := 0
  synthetic : Bool := false
  key_point : Bool := false
  withheld : Bool := false
  scan_angle_rank : ℤ := 0
  user_data : ℕ := 0
  point_source_id : ℕ := 0
  gps_time : Option F64 := none
  red : Option ℕ := none
  green : Option ℕ := none
  blue : Option ℕ := none
  extra_bytes : Option (List ℕ) := none
deriving DecidableEq

/-- The default point (Point::new, modelled from the spec). -/
def Point.new : Point := {}

/-- Modelled from the spec: a metadata record (VLR) is "an opaque
length-prefixed byte blob whose only role is contributing its serialized
byte length to offset bookkeeping"; we model it by its serialized bytes. -/
structure Vlr where
  data : List ℕ := []
deriving DecidableEq

/-- Serialized byte length of the record. -/
def Vlr.len (v : Vlr) : ℕ :=
  v.data.length

/-- Serialization of the record: its bytes, verbatim. -/
def Vlr.write_bytes (v : Vlr) : List ℕ :=
  v.data

/-- Modelled from the spec: header.rs is not among the given source files.
The header carries the declared sizes and offsets, the point-format code,
and the per-axis scale/offset and bounding-box doubles of section 3.
Defaults model Header::new for a LAS 1.2 header. -/
structure Header where
  version_major : ℕ := 1
  version_minor : ℕ := 2
  header_size : ℕ := 227
  offset_to_point_data : ℕ := 227
  number_of_point_records : ℕ := 0
  point_data_format : PointDataFormat := .format0
  point_data_record_length : ℕ := 20
  x_scale_factor : F64 := F64.finite 1
  y_scale_factor : F64 := F64.finite 1
  z_scale_factor : F64 := F64.finite 1
  x_offset : F64 := F64.finite 0
  y_offset : F64 := F64.finite 0
  z_offset : F64 := F64.finite 0
  x_min : F64 := F64.finite 0
  y_min : F64 := F64.finite 0
  z_min : F64 := F64.finite 0
  x_max : F64 := F64.finite 0
  y_max : F64 := F64.finite 0
  z_max : F64 := F64.finite 0
deriving DecidableEq

/-- The default header (Header::new, modelled from the spec). -/
def Header.new : Header := {}

/-- Modelled from the spec: recomputing header_size is "a pure function of
header version fields, external"; for the LAS 1.x versions this core
recognizes, the public header block is 227 bytes. -/
def Header.calculate_size (h : Header) : Header :=
  { h with header_size := 227 }

/-- Modelled from the spec: header serialization belongs to the excluded
header structure ("header field definitions and their own serialization"
are external collaborators).  Its byte values are outside this core; the
write path only pads whatever it produced up to header_size, so we model
it as producing no bytes and rely on no property of it. -/
def Header.write_bytes (_ : Header) : List ℕ :=
  []

/-- The error type of the operations this core performs, from error.rs as
used by file.rs and macros.rs: a read error carrying a message, and a
point-format mismatch carrying the format and the missing field's name. -/
inductive Error where
  | ReadError (message : String) : Error
  | PointFormat (format : PointDataFormat) (field : String) : Error
deriving DecidableEq

/-- Field-name string passed to Error::PointFormat for a missing
gps_time. -/
def gps_time_field : String := "gps_time"

/-- Field-name string passed to Error::PointFormat for a missing red. -/
def red_field : String := "red"

/-- Field-name string passed to Error::PointFormat for a missing green. -/
def green_field : String := "green"

/-- Field-name string passed to Error::PointFormat for a missing blue. -/
def blue_field : String := "blue"

/-- Message built by the try_read_n macro (macros.rs line 8). -/
def short_read_msg (n took : ℕ) : String :=
  "Tried to take " ++ toString n ++ " bytes, only took " ++ toString took

/-- The try_read_n macro of macros.rs: read n bytes from the stream, or
fail with a ReadError naming the demanded and obtained counts.  The
stream is a pure byte list, so a take yields min n (length) bytes. -/
def try_read_n (stream : List ℕ) (n : ℕ) : Except Error (List ℕ × List ℕ) :=
  let data := stream.take n
  let took := data.length
  if took ≠ n then Except.error (Error.ReadError (short_read_msg n took))
  else Except.ok (data, stream.drop n)

/-- A las file: header, variable length records, points (file.rs). -/
structure File where
  header : Header := Header.new
  vlrs : List Vlr := []
  points : List Point := []
deriving DecidableEq

/-- File::new: a new, empty las file. -/
def File.new : File := {}

/-- File::add_point: push a point onto the file's point sequence. -/
def File.add_point (f : File) (p : Point) : File :=
  { f with points := f.points ++ [p] }

/-- The return-info byte of File::write_point_to (file.rs lines 258-261):
return_number in bits 0-2, number_of_returns in bits 3-5, scan_direction
in bit 6, edge_of_flight_line in bit 7, combined by addition exactly as
the source does. -/
def return_byte (p : Point) : ℕ :=
  p.return_number.val + p.number_of_returns.val * 8 +
    p.scan_direction.val * 64 + (if p.edge_of_flight_line then 1 else 0) * 128

/-- The classification byte of File::write_point_to (file.rs lines
262-264): classification in bits 0-4, synthetic/key_point/withheld in bits
5/6/7. -/
def classification_byte (p : Point) : ℕ :=
  p.classification.val + (if p.synthetic then 1 else 0) * 32 +
    (if p.key_point then 1 else 0) * 64 + (if p.withheld then 1 else 0) * 128

/-- Modelled from the spec: the decode direction of the point-record codec
is the external streaming reader's side; section 4.2 specifies unpacking
the return-info byte as return_number (low 3 bits), number_of_returns
(next 3 bits), scan_direction (next bit), edge_of_flight_line (top bit). -/
def unpack_return_info (b : ℕ) : ℕ × ℕ × ℕ × Bool :=
  (b % 8, b / 8 % 8, b / 64 % 2, decide (b / 128 % 2 = 1))

/-- Modelled from the spec: section 4.2 specifies unpacking the
classification byte as classification (low 5 bits) and
synthetic/key_point/withheld (bits 5, 6, 7). -/
def unpack_classification (b : ℕ) : ℕ × Bool × Bool × Bool :=
  (b % 32, decide (b / 32 % 2 = 1), decide (b / 64 % 2 = 1),
   decide (b / 128 % 2 = 1))

/-- The 20 bytes of a point record that every format carries, in the order
File::write_point_to emits them (file.rs lines 248-268): scaled x, y, z as
i32 LE, intensity u16 LE, the two packed bytes, scan_angle_rank i8,
user_data u8, point_source_id u16 LE. -/
def fixed_point_bytes (h : Header) (p : Point) : List ℕ :=
  i32_to_le (descale p.x h.x_scale_factor h.x_offset) ++
  i32_to_le (descale p.y h.y_scale_factor h.y_offset) ++
  i32_to_le (descale p.z h.z_scale_factor h.z_offset) ++
  u16_to_le p.intensity ++
  [return_byte p] ++
  [classification_byte p] ++
  [i8_byte p.scan_angle_rank] ++
  [p.user_data % 256] ++
  u16_to_le p.point_source_id

/-- The GPS-time portion of File::write_point_to (file.rs lines 269-277):
when the format declares time, a present gps_time is written as 8 bytes
and an absent one is a PointFormat error; otherwise nothing is written. -/
def gps_field_bytes (fmt : PointDataFormat) (p : Point) : Except Error (List ℕ) :=
  if fmt.has_time then
    match p.gps_time with
    | some t => Except.ok (f64_to_le t)
    | none => Except.error (Error.PointFormat fmt gps_time_field)
  else Except.ok []

/-- The color portion of File::write_point_to (file.rs lines 278-300):
when the format declares color, red, green and blue are each written as
u16 LE in that order, the first absent one aborting with a PointFormat
error; otherwise nothing is written. -/
def color_field_bytes (fmt : PointDataFormat) (p : Point) : Except Error (List ℕ) :=
  if fmt.has_color then
    match p.red with
    | none => Except.error (Error.PointFormat fmt red_field)
    | some r =>
      match p.green with
      | none => Except.error (Error.PointFormat fmt green_field)
      | some g =>
        match p.blue with
        | none => Except.error (Error.PointFormat fmt blue_field)
        | some b => Except.ok (u16_to_le r ++ u16_to_le g ++ u16_to_le b)
  else Except.ok []

/-- File::write_point_to (file.rs lines 247-306): the fixed 20 bytes, then
the format-gated GPS time and color fields, then any extra bytes verbatim.
Only the header is consulted (scale factors, offsets, format). -/
def File.write_point_to (h : Header) (p : Point) : Except Error (List ℕ) :=
  match gps_field_bytes h.point_data_format p with
  | Except.error e => Except.error e
  | Except.ok g =>
    match color_field_bytes h.point_data_format p with
    | Except.error e => Except.error e
    | Except.ok c =>
      Except.ok (fixed_point_bytes h p ++ g ++ c ++ p.extra_bytes.getD [])

/-- One step of the per-return tally of File::write_to (file.rs lines
193-196): a positive return number bumps bucket return_number - 1 of the
five-element array; an index past the array's length is the bounds-check
panic of the source, modelled as none. -/
def bump_return (acc : List ℕ) (rn : ℕ) : Option (List ℕ) :=
  if 0 < rn then
    if rn - 1 < acc.length then
      some (acc.set (rn - 1) (acc.getD (rn - 1) 0 + 1))
    else none
  else some acc

/-- The tally loop, point by point, threading the bucket array; none
propagates a panic. -/
def tally_points (acc : List ℕ) : List Point → Option (List ℕ)
  | [] => some acc
  | p :: tl =>
    match bump_return acc p.return_number.val with
    | none => none
    | some acc2 => tally_points acc2 tl

/-- The number_of_points_by_return tally of File::write_to (file.rs lines
185-196), over the whole point list, none meaning the loop panics. -/
def number_of_points_by_return (pts : List Point) : Option (List ℕ) :=
  tally_points [0, 0, 0, 0, 0] pts

/-- The six running bounds of the write loop. -/
structure Bounds where
  x_min : F64
  y_min : F64
  z_min : F64
  x_max : F64
  y_max : F64
  z_max : F64
deriving DecidableEq

/-- One step of the min/max scan of File::write_to (file.rs lines
197-215): each bound moves only when the strict IEEE comparison of the
source fires. -/
def update_bounds (b : Bounds) (p : Point) : Bounds :=
  { x_min := if F64.lt p.x b.x_min then p.x else b.x_min
    y_min := if F64.lt p.y b.y_min then p.y else b.y_min
    z_min := if F64.lt p.z b.z_min then p.z else b.z_min
    x_max := if F64.lt b.x_max p.x then p.x else b.x_max
    y_max := if F64.lt b.y_max p.y then p.y else b.y_max
    z_max := if F64.lt b.z_max p.z then p.z else b.z_max }

/-- The bounding-box scan of File::write_to (file.rs lines 186-215),
starting from f64::MAX for the minima and f64::MIN for the maxima. -/
def compute_bounds (pts : List Point) : Bounds :=
  pts.foldl update_bounds
    { x_min := f64_max_value, y_min := f64_max_value, z_min := f64_max_value,
      x_max := f64_min_value, y_max := f64_min_value, z_max := f64_min_value }

/-- The header-field mutations File::write_to performs before the point
scan (file.rs lines 179-183): recompute header_size, then set the point
count (as u32), the offset to point data (header_size plus the metadata
record lengths, as u32), and the format's fixed record length. -/
def counted_header (f : File) : Header :=
  let h0 := f.header.calculate_size
  { h0 with
    number_of_point_records := f.points.length % 4294967296,
    offset_to_point_data :=
      (h0.header_size + f.vlrs.foldl (fun a v => a + v.len) 0) % 4294967296,
    point_data_record_length := h0.point_data_format.record_length }

/-- The header as File::write_to leaves it (file.rs lines 179-227): the
counted fields, the computed bounding box, and, when auto_offsets is
requested, each axis offset replaced by the midpoint of that axis's
computed min and max. -/
def written_header (f : File) (auto_offsets : Bool) : Header :=
  let h1 := counted_header f
  let b := compute_bounds f.points
  let h2 := { h1 with
    x_min := b.x_min, y_min := b.y_min, z_min := b.z_min,
    x_max := b.x_max, y_max := b.y_max, z_max := b.z_max }
  if auto_offsets then
    { h2 with
      x_offset := F64.div (F64.add b.x_min b.x_max) (F64.finite 2),
      y_offset := F64.div (F64.add b.y_min b.y_max) (F64.finite 2),
      z_offset := F64.div (F64.add b.z_min b.z_max) (F64.finite 2) }
  else h2

/-- The byte stream File::write_to produces (file.rs lines 229-244):
header bytes padded to header_size, the metadata records in order, padding
up to the declared point-data offset, then each point record via
File::write_point_to; the first point-encoding error aborts. -/
def write_stream (f : File) (auto_offsets : Bool) : Except Error (List ℕ) :=
  let h3 := written_header f auto_offsets
  let hb := Header.write_bytes h3
  let b1 := hb ++
    (if hb.length < h3.header_size then
      List.replicate (h3.header_size - hb.length) 0 else [])
  let b2 := b1 ++ f.vlrs.foldl (fun a v => a ++ v.write_bytes) []
  let b3 := b2 ++
    (if b2.length < h3.offset_to_point_data then
      List.replicate (h3.offset_to_point_data - b2.length) 0 else [])
  Except.map (fun pb => b3 ++ pb)
    (f.points.foldlM
      (fun acc p => Except.map (fun l => acc ++ l) (File.write_point_to h3 p))
      [])

/-- File::write_to, assembled: tally (whose out-of-bounds panic is none),
then the mutated file paired with the serialized stream or the first
point-encoding error. -/
def File.write_to (f : File) (auto_offsets : Bool) :
    Option (File × Except Error (List ℕ)) :=
  match number_of_points_by_return f.points with
  | none => none
  | some _ =>
    some ({ f with header := written_header f auto_offsets },
      write_stream f auto_offsets)

/-- The number of points of the list whose return number is k. -/
def cnt_rn (k : ℕ) (pts : List Point) : ℕ :=
  (pts.filter (fun p => p.return_number.val == k)).length

/-- The default point with the four return-info fields set. -/
def return_info_point (rn nr : Fin 8) (sd : Fin 2) (eofl : Bool) : Point :=
  { Point.new with return_number := rn, number_of_returns := nr, scan_direction := sd, edge_of_flight_line := eofl }

/-- The default point with the four classification-byte fields set. -/
def classification_point (cls : Fin 32) (syn kp wh : Bool) : Point :=
  { Point.new with classification := cls, synthetic := syn, key_point := kp, withheld := wh }

theorem fixed_point_bytes_length (h : Header) (p : Point) :
    (fixed_point_bytes h p).length = 20 := by
  simp [fixed_point_bytes, i32_to_le, u16_to_le]

theorem f64_to_le_length (t : F64) : (f64_to_le t).length = 8 := rfl

theorem abs_round_half_away (q : ℚ) : |(round_half_away q : ℚ) - q| ≤ 1 / 2 := by
  rcases le_or_lt 0 q with hq | hq
  · rw [round_half_away, if_pos hq]
    have h1 : ((⌊q + 1 / 2⌋ : ℤ) : ℚ) ≤ q + 1 / 2 := Int.floor_le _
    have h2 : q + 1 / 2 < (⌊q + 1 / 2⌋ : ℤ) + 1 := Int.lt_floor_add_one _
    rw [abs_le]
    constructor <;> linarith
  · rw [round_half_away, if_neg (not_le.mpr hq)]
    have h1 : ((⌊1 / 2 - q⌋ : ℤ) : ℚ) ≤ 1 / 2 - q := Int.floor_le _
    have h2 : 1 / 2 - q < (⌊1 / 2 - q⌋ : ℤ) + 1 := Int.lt_floor_add_one _
    rw [abs_le]
    push_cast
    constructor <;> linarith

/-- C9: reading an n-byte quantity fails with a short-read error exactly
when fewer than n bytes are available, and the error message reports the
demanded and obtained counts; otherwise the n bytes are consumed. -/
theorem c9_short_read : ∀ (stream : List ℕ) (n : ℕ),
    ((∃ e, try_read_n stream n = Except.error e) ↔ stream.length < n)
    ∧ (stream.length < n →
        try_read_n stream n =
          Except.error (Error.ReadError (short_read_msg n stream.length)))
    ∧ (n ≤ stream.length →
        try_read_n stream n = Except.ok (stream.take n, stream.drop n)) := by
  intro stream n
  by_cases h : stream.length < n
  · have h1 : (stream.take n).length = stream.length := by
      rw [List.length_take]
      omega
    have h2 : try_read_n stream n =
        Except.error (Error.ReadError (short_read_msg n stream.length)) := by
      simp only [try_read_n, h1]
      rw [if_pos (show stream.length ≠ n by omega)]
    exact ⟨⟨fun _ => h, fun _ => ⟨_, h2⟩⟩, fun _ => h2,
      fun hle => absurd hle (by omega)⟩
  · have h1 : (stream.take n).length = n := by
      rw [List.length_take]
      omega
    have h2 : try_read_n stream n = Except.ok (stream.take n, stream.drop n) := by
      simp only [try_read_n, h1]
      rw [if_neg (show ¬n ≠ n by omega)]
    refine ⟨⟨?_, fun hlt => absurd hlt h⟩, fun hlt => absurd hlt h, fun _ => h2⟩
    rintro ⟨e, he⟩
    rw [h2] at he
    simp at he

/-- Witness for C9: a two-byte stream is short for a three-byte demand and
the error names both counts; it satisfies a two-byte demand. -/
theorem c9_short_read_witness :
    try_read_n [1, 2] 3 =
      Except.error (Error.ReadError (short_read_msg 3 2))
    ∧ try_read_n [1, 2] 2 = Except.ok ([1, 2], []) := by
  refine ⟨(c9_short_read [1, 2] 3).2.1 (by decide), ?_⟩
  have h := (c9_short_read [1, 2] 2).2.2 (by decide)
  simpa using h

/-- C5: the return-info byte places return_number in bits 0-2,
number_of_returns in bits 3-5, scan_direction in bit 6 and
edge_of_flight_line in bit 7; the classification byte places
classification in bits 0-4 and synthetic/key_point/withheld in bits
5/6/7; packing then unpacking per that layout reproduces every in-range
field exactly. -/
theorem c5_bit_packing :
    (∀ (rn nr : Fin 8) (sd : Fin 2) (eofl : Bool),
      unpack_return_info (return_byte (return_info_point rn nr sd eofl)) =
        (rn.val, nr.val, sd.val, eofl))
    ∧ (∀ (cls : Fin 32) (syn kp wh : Bool),
      unpack_classification (classification_byte (classification_point cls syn kp wh)) =
        (cls.val, syn, kp, wh)) := by
  constructor <;> decide

theorem write_to_some (f : File) (b : Bool) (f2 : File)
    (r : Except Error (List ℕ)) (h : File.write_to f b = some (f2, r)) :
    f2 = { f with header := written_header f b } ∧ r = write_stream f b := by
  unfold File.write_to at h
  cases htal : number_of_points_by_return f.points with
  | none =>
    rw [htal] at h
    exact Option.noConfusion h
  | some l =>
    rw [htal] at h
    simp only [Option.some.injEq, Prod.mk.injEq] at h
    exact ⟨h.1.symm, h.2.symm⟩

theorem written_header_bounds (f : File) (b : Bool) :
    (written_header f b).x_min = (compute_bounds f.points).x_min
    ∧ (written_header f b).y_min = (compute_bounds f.points).y_min
    ∧ (written_header f b).z_min = (compute_bounds f.points).z_min
    ∧ (written_header f b).x_max = (compute_bounds f.points).x_max
    ∧ (written_header f b).y_max = (compute_bounds f.points).y_max
    ∧ (written_header f b).z_max = (compute_bounds f.points).z_max := by
  cases b <;> exact ⟨rfl, rfl, rfl, rfl, rfl, rfl⟩

theorem written_header_counts (f : File) (b : Bool) :
    (written_header f b).number_of_point_records = f.points.length % 4294967296
    ∧ (written_header f b).point_data_format = f.header.point_data_format
    ∧ (written_header f b).point_data_record_length =
        f.header.point_data_format.record_length
    ∧ (written_header f b).header_size = 227
    ∧ (written_header f b).offset_to_point_data =
        (227 + f.vlrs.foldl (fun a v => a + v.len) 0) % 4294967296 := by
  cases b <;> exact ⟨rfl, rfl, rfl, rfl, rfl⟩

theorem written_header_offsets_false (f : File) :
    (written_header f false).x_offset = f.header.x_offset
    ∧ (written_header f false).y_offset = f.header.y_offset
    ∧ (written_header f false).z_offset = f.header.z_offset :=
  ⟨rfl, rfl, rfl⟩

theorem written_header_offsets_true (f : File) :
    (written_header f true).x_offset =
      F64.div (F64.add (compute_bounds f.points).x_min (compute_bounds f.points).x_max) (F64.finite 2)
    ∧ (written_header f true).y_offset =
      F64.div (F64.add (compute_bounds f.points).y_min (compute_bounds f.points).y_max) (F64.finite 2)
    ∧ (written_header f true).z_offset =
      F64.div (F64.add (compute_bounds f.points).z_min (compute_bounds f.points).z_max) (F64.finite 2) :=
  ⟨rfl, rfl, rfl⟩

theorem compute_bounds_nil :
    compute_bounds [] =
      { x_min := f64_max_value, y_min := f64_max_value, z_min := f64_max_value,
        x_max := f64_min_value, y_max := f64_min_value, z_max := f64_min_value } :=
  rfl

/-- C2 counterexample: writing the empty file succeeds, but the header
minima are f64::MAX and the maxima f64::MIN — large finite doubles, not
the infinities the claim states. -/
theorem c2_counterexample :
    ∃ f2 bytes, File.write_to File.new false = some (f2, Except.ok bytes)
      ∧ f2.header.x_min ≠ F64.posInf ∧ f2.header.y_min ≠ F64.posInf
      ∧ f2.header.z_min ≠ F64.posInf ∧ f2.header.x_max ≠ F64.negInf
      ∧ f2.header.y_max ≠ F64.negInf ∧ f2.header.z_max ≠ F64.negInf := by
  refine ⟨_, _, rfl, ?_, ?_, ?_, ?_, ?_, ?_⟩ <;> decide

/-- C2 amended: writing a File whose point sequence is empty sets every
per-axis bounding-box minimum to f64::MAX = (2^53-1)*2^971 and every
maximum to f64::MIN = -(2^53-1)*2^971 (the extreme finite doubles used to
seed the scan, not infinities), and the write completes without failure. -/
theorem c2_empty_bbox : ∀ (f : File) (b : Bool), f.points = [] →
    ∃ f2 bytes, File.write_to f b = some (f2, Except.ok bytes)
      ∧ f2.header.x_min = f64_max_value ∧ f2.header.y_min = f64_max_value
      ∧ f2.header.z_min = f64_max_value ∧ f2.header.x_max = f64_min_value
      ∧ f2.header.y_max = f64_min_value ∧ f2.header.z_max = f64_min_value := by
  intro f b hp
  have htal : number_of_points_by_return f.points = some [0, 0, 0, 0, 0] := by
    rw [hp]
    rfl
  obtain ⟨bytes, hstream⟩ : ∃ bytes, write_stream f b = Except.ok bytes := by
    unfold write_stream
    rw [hp]
    exact ⟨_, rfl⟩
  refine ⟨{ f with header := written_header f b }, bytes, ?_, ?_, ?_, ?_, ?_, ?_, ?_⟩
  · unfold File.write_to
    rw [htal, hstream]
  · show (written_header f b).x_min = f64_max_value
    rw [(written_header_bounds f b).1, hp, compute_bounds_nil]
  · show (written_header f b).y_min = f64_max_value
    rw [(written_header_bounds f b).2.1, hp, compute_bounds_nil]
  · show (written_header f b).z_min = f64_max_value
    rw [(written_header_bounds f b).2.2.1, hp, compute_bounds_nil]
  · show (written_header f b).x_max = f64_min_value
    rw [(written_header_bounds f b).2.2.2.1, hp, compute_bounds_nil]
  · show (written_header f b).y_max = f64_min_value
    rw [(written_header_bounds f b).2.2.2.2.1, hp, compute_bounds_nil]
  · show (written_header f b).z_max = f64_min_value
    rw [(written_header_bounds f b).2.2.2.2.2, hp, compute_bounds_nil]

/-- Witness for C2: the amended statement at the concrete empty file. -/
theorem c2_empty_bbox_witness :
    ∃ f2 bytes, File.write_to File.new true = some (f2, Except.ok bytes)
      ∧ f2.header.x_min = f64_max_value ∧ f2.header.y_min = f64_max_value
      ∧ f2.header.z_min = f64_max_value ∧ f2.header.x_max = f64_min_value
      ∧ f2.header.y_max = f64_min_value ∧ f2.header.z_max = f64_min_value :=
  c2_empty_bbox File.new true rfl

theorem round_half_away_intCast (n : ℤ) : round_half_away (n : ℚ) = n := by
  rw [round_half_away]
  rcases le_or_lt 0 (n : ℚ) with h | h
  · rw [if_pos h]
    rw [Int.floor_eq_iff]
    constructor <;> linarith
  · rw [if_neg (not_le.mpr h)]
    have hf : ⌊1 / 2 - (n : ℚ)⌋ = -n := by
      rw [Int.floor_eq_iff]
      constructor <;> push_cast <;> linarith
    rw [hf, neg_neg]

/-- C8 counterexample: at v = 2^40, s = 1, o = 0 the rounded value
overflows the i32 cast, descale saturates at i32::MAX, and the scaled-back
value misses v by far more than one unit of s. -/
theorem c8_counterexample :
    scale (descale (F64.finite (2 ^ 40)) (F64.finite 1) (F64.finite 0))
        (F64.finite 1) (F64.finite 0) = F64.finite 2147483647
    ∧ ¬ |(2147483647 : ℚ) - 2 ^ 40| ≤ 1 := by
  have hdiv : F64.div (F64.sub (F64.finite (2 ^ 40)) (F64.finite 0)) (F64.finite 1) =
      F64.finite (((2 ^ 40 : ℤ) : ℚ)) := by
    norm_num [F64.sub, F64.neg, F64.add, F64.div]
  have hdesc : descale (F64.finite (2 ^ 40)) (F64.finite 1) (F64.finite 0) =
      2147483647 := by
    simp only [descale, hdiv, round_half_away_intCast]
    rw [if_pos (by norm_num)]
  constructor
  · rw [scale, hdesc]
    norm_num [F64.mul, F64.add]
  · norm_num

/-- C8 amended: for rational v, o and positive rational s (the exact model
of the spec's doubles) such that round((v - o) / s) lies within the i32
range, scale(descale(v, s, o), s, o) is finite and differs from v by at
most one unit of s; outside that range the i32 cast saturates and the
bound can fail. -/
theorem c8_scale_inverse : ∀ (v s o : ℚ), 0 < s →
    -2147483648 ≤ round_half_away ((v - o) / s) →
    round_half_away ((v - o) / s) ≤ 2147483647 →
    ∃ q : ℚ,
      scale (descale (F64.finite v) (F64.finite s) (F64.finite o))
        (F64.finite s) (F64.finite o) = F64.finite q
      ∧ |q - v| ≤ s := by
  intro v s o hs hlo hhi
  have hs0 : s ≠ 0 := ne_of_gt hs
  have hdiv : F64.div (F64.sub (F64.finite v) (F64.finite o)) (F64.finite s) =
      F64.finite ((v - o) / s) := by
    simp [F64.sub, F64.add, F64.neg, F64.div, hs0, sub_eq_add_neg]
  have hdesc : descale (F64.finite v) (F64.finite s) (F64.finite o) =
      round_half_away ((v - o) / s) := by
    simp only [descale, hdiv]
    rw [if_neg (by omega), if_neg (by omega)]
  refine ⟨(round_half_away ((v - o) / s) : ℚ) * s + o, ?_, ?_⟩
  · rw [scale, hdesc]
    simp [F64.mul, F64.add]
  · have hts : ((v - o) / s) * s = v - o := div_mul_cancel₀ _ hs0
    have habs : |(round_half_away ((v - o) / s) : ℚ) - (v - o) / s| ≤ 1 / 2 :=
      abs_round_half_away _
    have hq : (round_half_away ((v - o) / s) : ℚ) * s + o - v =
        ((round_half_away ((v - o) / s) : ℚ) - (v - o) / s) * s := by
      rw [sub_mul, hts]
      ring
    rw [hq, abs_mul, abs_of_pos hs]
    have h2 : |(round_half_away ((v - o) / s) : ℚ) - (v - o) / s| * s ≤ (1 / 2) * s :=
      mul_le_mul_of_nonneg_right habs (le_of_lt hs)
    linarith

/-- Witness for C8: the amended law applied at v = 10, s = 1, o = 0. -/
theorem c8_scale_inverse_witness :
    ∃ q : ℚ,
      scale (descale (F64.finite 10) (F64.finite 1) (F64.finite 0))
        (F64.finite 1) (F64.finite 0) = F64.finite q
      ∧ |q - 10| ≤ 1 :=
  have h : ((10 : ℚ) - 0) / 1 = ((10 : ℤ) : ℚ) := by norm_num
  have hr : round_half_away (((10 : ℚ) - 0) / 1) = 10 := by
    rw [h, round_half_away_intCast]
  c8_scale_inverse 10 1 0 (by norm_num) (by rw [hr]; norm_num)
    (by rw [hr]; norm_num)

/-- C4: encoding a single point fails with a PointFormat error exactly
when gps_time is absent while the active format declares time, or one of
red/green/blue is absent while it declares color; the error carries the
format and the name of a field that is indeed missing and required; when
the format declares neither optional field the same point encodes to the
20 fixed bytes plus its extra bytes, the gated fields omitted; and
add_point performs no such check — it appends unconditionally. -/
theorem c4_format_gating : ∀ (h : Header) (p : Point),
    ((∃ e, File.write_point_to h p = Except.error e) ↔
      (h.point_data_format.has_time = true ∧ p.gps_time = none)
      ∨ (h.point_data_format.has_color = true
          ∧ (p.red = none ∨ p.green = none ∨ p.blue = none)))
    ∧ (∀ e, File.write_point_to h p = Except.error e →
        (e = Error.PointFormat h.point_data_format gps_time_field
            ∧ h.point_data_format.has_time = true ∧ p.gps_time = none)
        ∨ (e = Error.PointFormat h.point_data_format red_field
            ∧ h.point_data_format.has_color = true ∧ p.red = none)
        ∨ (e = Error.PointFormat h.point_data_format green_field
            ∧ h.point_data_format.has_color = true ∧ p.green = none)
        ∨ (e = Error.PointFormat h.point_data_format blue_field
            ∧ h.point_data_format.has_color = true ∧ p.blue = none))
    ∧ (h.point_data_format.has_time = false → h.point_data_format.has_color = false →
        ∃ bs, File.write_point_to h p = Except.ok bs
          ∧ bs.length = 20 + (p.extra_bytes.getD []).length)
    ∧ (∀ (f : File), (File.add_point f p).points = f.points ++ [p]) := by
  intro h p
  refine ⟨?_, ?_, ?_, fun f => rfl⟩
  · cases hT : h.point_data_format.has_time <;>
      cases hC : h.point_data_format.has_color <;>
      cases hg : p.gps_time <;> cases hr : p.red <;>
      cases hgr : p.green <;> cases hbl : p.blue <;>
      simp [File.write_point_to, gps_field_bytes, color_field_bytes, hT, hC,
        hg, hr, hgr, hbl]
  · intro e he
    cases hT : h.point_data_format.has_time <;>
      cases hC : h.point_data_format.has_color <;>
      cases hg : p.gps_time <;> cases hr : p.red <;>
      cases hgr : p.green <;> cases hbl : p.blue <;>
      simp [File.write_point_to, gps_field_bytes, color_field_bytes, hT, hC,
        hg, hr, hgr, hbl] at he <;>
      simp [he, hT, hC, hg, hr, hgr, hbl]
  · intro hT hC
    refine ⟨fixed_point_bytes h p ++ [] ++ [] ++ p.extra_bytes.getD [], ?_, ?_⟩
    · rw [File.write_point_to]
      rw [show gps_field_bytes h.point_data_format p = Except.ok [] by
        rw [gps_field_bytes, hT]; rfl]
      rw [show color_field_bytes h.point_data_format p = Except.ok [] by
        rw [color_field_bytes, hC]; rfl]
    · simp [fixed_point_bytes_length h p]

/-- Witness for C4: against format 1 (time-bearing) the default point,
which lacks gps_time, fails with the PointFormat error naming gps_time;
against format 0 the very same point encodes to 20 bytes. -/
theorem c4_format_gating_witness :
    (∃ e, File.write_point_to { Header.new with point_data_format := PointDataFormat.format1 } Point.new = Except.error e
      ∧ e = Error.PointFormat PointDataFormat.format1 gps_time_field)
    ∧ (∃ bs, File.write_point_to Header.new Point.new = Except.ok bs
        ∧ bs.length = 20) := by
  constructor
  · obtain ⟨e, he⟩ :=
      (c4_format_gating { Header.new with point_data_format := PointDataFormat.format1 } Point.new).1.mpr
        (Or.inl ⟨rfl, rfl⟩)
    refine ⟨e, he, ?_⟩
    have h2 := (c4_format_gating { Header.new with point_data_format := PointDataFormat.format1 } Point.new).2.1 e he
    rcases h2 with ⟨h3, _, _⟩ | ⟨_, hc, _⟩ | ⟨_, hc, _⟩ | ⟨_, hc, _⟩
    · exact h3
    all_goals exact absurd hc (by decide)
  · obtain ⟨bs, hbs, hlen⟩ :=
      (c4_format_gating Header.new Point.new).2.2.1 rfl rfl
    exact ⟨bs, hbs, by simpa using hlen⟩

/-- C10: a present extra_bytes sequence is appended verbatim after the
format-gated fields, an absent one contributes nothing, the encoded
length is the fixed 20 bytes plus the gated fields plus however many extra
bytes the point happens to carry, and none of this consults the header's
declared point_data_record_length — so a mismatched extra_bytes length
yields a record of the wrong stride without any error. -/
theorem fixed_point_bytes_drop_extra (h : Header) (p : Point) :
    fixed_point_bytes h { p with extra_bytes := none } = fixed_point_bytes h p :=
  rfl

theorem write_point_to_eq (h : Header) (p : Point) :
    File.write_point_to h p =
      match gps_field_bytes h.point_data_format p with
      | Except.error e => Except.error e
      | Except.ok g =>
        match color_field_bytes h.point_data_format p with
        | Except.error e => Except.error e
        | Except.ok c =>
          Except.ok (fixed_point_bytes h p ++ g ++ c ++ p.extra_bytes.getD []) :=
  rfl

theorem write_point_to_drop_extra (h : Header) (p : Point) :
    File.write_point_to h { p with extra_bytes := none } =
      match gps_field_bytes h.point_data_format p with
      | Except.error e => Except.error e
      | Except.ok g =>
        match color_field_bytes h.point_data_format p with
        | Except.error e => Except.error e
        | Except.ok c => Except.ok (fixed_point_bytes h p ++ g ++ c ++ []) :=
  rfl

theorem c10_extra_bytes_passthrough : ∀ (h : Header) (p : Point),
    File.write_point_to h p =
      Except.map (fun bs => bs ++ p.extra_bytes.getD [])
        (File.write_point_to h { p with extra_bytes := none })
    ∧ (∀ bs, File.write_point_to h p = Except.ok bs →
        bs.length = 20 + (if h.point_data_format.has_time then 8 else 0)
          + (if h.point_data_format.has_color then 6 else 0)
          + (p.extra_bytes.getD []).length)
    ∧ (∀ n, File.write_point_to { h with point_data_record_length := n } p
          = File.write_point_to h p) := by
  intro h p
  refine ⟨?_, ?_, fun n => rfl⟩
  · rw [write_point_to_eq, write_point_to_drop_extra]
    cases gps_field_bytes h.point_data_format p with
    | error e => rfl
    | ok g =>
      cases color_field_bytes h.point_data_format p with
      | error e => rfl
      | ok c => simp [Except.map, List.append_assoc]
  · intro bs hbs
    cases hT : h.point_data_format.has_time <;>
      cases hC : h.point_data_format.has_color <;>
      cases hg : p.gps_time <;> cases hr : p.red <;>
      cases hgr : p.green <;> cases hbl : p.blue <;>
      simp [File.write_point_to, gps_field_bytes, color_field_bytes, hT, hC,
        hg, hr, hgr, hbl] at hbs <;>
      simp [← hbs, hT, hC, fixed_point_bytes_length, f64_to_le_length, u16_to_le] <;>
      omega

/-- Witness for C10: with the default header (declared record length 20,
format 0) a point carrying three extra bytes still encodes successfully,
to a 23-byte record — a stride mismatch and no error. -/
theorem c10_extra_bytes_witness :
    ∃ bs, File.write_point_to Header.new
        { Point.new with extra_bytes := some [1, 2, 3] } = Except.ok bs
      ∧ bs.length = 23 ∧ Header.new.point_data_record_length = 20 := by
  have h1 : File.write_point_to Header.new
      { Point.new with extra_bytes := some [1, 2, 3] } =
      Except.ok (fixed_point_bytes Header.new
        { Point.new with extra_bytes := some [1, 2, 3] } ++ [] ++ [] ++ [1, 2, 3]) := rfl
  refine ⟨_, h1, ?_, rfl⟩
  have h2 := (c10_extra_bytes_passthrough Header.new
    { Point.new with extra_bytes := some [1, 2, 3] }).2.1 _ h1
  simpa using h2

theorem tally_fold : ∀ (pts : List Point) (a0 a1 a2 a3 a4 : ℕ),
    tally_points [a0, a1, a2, a3, a4] pts =
      (if ∀ p ∈ pts, p.return_number.val ≤ 5 then
        some [a0 + cnt_rn 1 pts, a1 + cnt_rn 2 pts, a2 + cnt_rn 3 pts,
              a3 + cnt_rn 4 pts, a4 + cnt_rn 5 pts]
      else none) := by
  intro pts
  induction pts with
  | nil =>
    intro a0 a1 a2 a3 a4
    simp [tally_points, cnt_rn]
  | cons p tl ih =>
    intro a0 a1 a2 a3 a4
    rcases hpr : p.return_number with ⟨rv, hrv⟩
    have hval : p.return_number.val = rv := by rw [hpr]
    interval_cases rv <;>
      simp [tally_points, bump_return, hval, cnt_rn, List.filter_cons, ih] <;>
      split <;>
      simp [Option.some.injEq, List.cons.injEq] <;>
      omega

/-- C3 counterexample: a file holding one point with return_number 6 makes
the write panic (the tally indexes bucket 5 of a five-element array), so
the write does not succeed as the claim states. -/
theorem c3_counterexample :
    File.write_to { File.new with points := [{ Point.new with return_number := 6 }] } false = none
    ∧ ¬ ∃ f2 r, File.write_to { File.new with points := [{ Point.new with return_number := 6 }] } false = some (f2, r) := by
  have h0 : File.write_to { File.new with points := [{ Point.new with return_number := 6 }] } false = none := rfl
  refine ⟨h0, ?_⟩
  rintro ⟨f2, r, hr⟩
  rw [h0] at hr
  exact Option.noConfusion hr

/-- C3 amended: during write the per-return tally puts a point with
return_number r, 1 ≤ r ≤ 5, into bucket index r-1 (bucket i counts the
points with return_number i+1) and a point with return_number 0 into no
bucket; but a point with return_number 6 or 7 does not leave its point
uncounted — it panics the write through an out-of-bounds bucket index, so
the write returns nothing rather than succeeding. -/
theorem c3_return_tally :
    (∀ pts : List Point,
      number_of_points_by_return pts =
        (if ∀ p ∈ pts, p.return_number.val ≤ 5 then
          some [cnt_rn 1 pts, cnt_rn 2 pts, cnt_rn 3 pts, cnt_rn 4 pts, cnt_rn 5 pts]
        else none))
    ∧ (∀ (f : File) (b : Bool),
        File.write_to f b = none ↔ ¬ ∀ p ∈ f.points, p.return_number.val ≤ 5) := by
  have h1 : ∀ pts : List Point,
      number_of_points_by_return pts =
        (if ∀ p ∈ pts, p.return_number.val ≤ 5 then
          some [cnt_rn 1 pts, cnt_rn 2 pts, cnt_rn 3 pts, cnt_rn 4 pts, cnt_rn 5 pts]
        else none) := by
    intro pts
    have h := tally_fold pts 0 0 0 0 0
    simpa [number_of_points_by_return] using h
  refine ⟨h1, ?_⟩
  intro f b
  unfold File.write_to
  rw [h1 f.points]
  by_cases hc : ∀ p ∈ f.points, p.return_number.val ≤ 5
  · rw [if_pos hc]
    simp
    exact hc
  · rw [if_neg hc]
    simp [hc]

/-- Witness for C3: the tally of a single default point (return_number 0)
is all-zero buckets, via the amended theorem. -/
theorem c3_return_tally_witness :
    number_of_points_by_return [Point.new] = some [0, 0, 0, 0, 0] := by
  have h := c3_return_tally.1 [Point.new]
  simpa [cnt_rn, Point.new] using h

/-- C6: before any bytes are produced, write_to sets the header point
count to the number of points (as u32), the record length to the active
format's fixed record length, and the point-data offset to header_size
plus the metadata record lengths (as u32); the mutations live on the
returned file — whose points and metadata records are untouched — whether
or not the point pass later fails. -/
theorem c6_header_mutations : ∀ (f : File) (b : Bool) (f2 : File) (r : Except Error (List ℕ)),
    File.write_to f b = some (f2, r) →
      f2.header.number_of_point_records = f.points.length % 4294967296
      ∧ f2.header.point_data_format = f.header.point_data_format
      ∧ f2.header.point_data_record_length = f2.header.point_data_format.record_length
      ∧ f2.header.offset_to_point_data =
          (f2.header.header_size + f.vlrs.foldl (fun a v => a + v.len) 0) % 4294967296
      ∧ f2.points = f.points ∧ f2.vlrs = f.vlrs := by
  intro f b f2 r hw
  obtain ⟨hf2, hr⟩ := write_to_some f b f2 r hw
  subst hf2
  obtain ⟨hc1, hc2, hc3, hc4, hc5⟩ := written_header_counts f b
  refine ⟨hc1, hc2, ?_, ?_, rfl, rfl⟩
  · show (written_header f b).point_data_record_length =
      (written_header f b).point_data_format.record_length
    rw [hc3, hc2]
  · show (written_header f b).offset_to_point_data =
      ((written_header f b).header_size + f.vlrs.foldl (fun a v => a + v.len) 0) % 4294967296
    rw [hc5, hc4]

/-- Witness for C6: the mutated header of a written empty file. -/
theorem c6_header_mutations_witness :
    ∃ f2 r, File.write_to File.new false = some (f2, r)
      ∧ f2.header.number_of_point_records = 0
      ∧ f2.header.point_data_record_length = 20
      ∧ f2.header.offset_to_point_data = 227 := by
  have h0 : File.write_to File.new false =
      some ({ File.new with header := written_header File.new false },
        write_stream File.new false) := by
    unfold File.write_to
    rw [show number_of_points_by_return File.new.points = some [0, 0, 0, 0, 0] from rfl]
  obtain ⟨h1, h2, h3, h4, _, _⟩ := c6_header_mutations File.new false _ _ h0
  refine ⟨_, _, h0, ?_, ?_, ?_⟩
  · simpa using h1
  · rw [h3, h2]
    rfl
  · rw [h4]
    rfl

/-- C7: write_to with auto-offsets requested sets each axis offset to the
midpoint of that axis's computed point minimum and maximum; without the
request every axis offset is exactly the caller's. -/
theorem c7_auto_offsets : ∀ (f fT fF : File) (rT rF : Except Error (List ℕ)),
    File.write_to f true = some (fT, rT) →
    File.write_to f false = some (fF, rF) →
      (fT.header.x_offset =
        F64.div (F64.add (compute_bounds f.points).x_min (compute_bounds f.points).x_max) (F64.finite 2)
       ∧ fT.header.y_offset =
        F64.div (F64.add (compute_bounds f.points).y_min (compute_bounds f.points).y_max) (F64.finite 2)
       ∧ fT.header.z_offset =
        F64.div (F64.add (compute_bounds f.points).z_min (compute_bounds f.points).z_max) (F64.finite 2))
      ∧ (fF.header.x_offset = f.header.x_offset
         ∧ fF.header.y_offset = f.header.y_offset
         ∧ fF.header.z_offset = f.header.z_offset) := by
  intro f fT fF rT rF hT hF
  obtain ⟨hfT, _⟩ := write_to_some f true fT rT hT
  obtain ⟨hfF, _⟩ := write_to_some f false fF rF hF
  subst hfT
  subst hfF
  exact ⟨written_header_offsets_true f, written_header_offsets_false f⟩

/-- Witness for C7: on the empty file, auto offsets become the midpoint of
f64::MAX and f64::MIN while the plain write keeps the default offsets. -/
theorem c7_auto_offsets_witness :
    ∃ fT fF rT rF, File.write_to File.new true = some (fT, rT)
      ∧ File.write_to File.new false = some (fF, rF)
      ∧ fT.header.x_offset = F64.div (F64.add f64_max_value f64_min_value) (F64.finite 2)
      ∧ fF.header.x_offset = F64.finite 0 := by
  have hT : File.write_to File.new true =
      some ({ File.new with header := written_header File.new true },
        write_stream File.new true) := by
    unfold File.write_to
    rw [show number_of_points_by_return File.new.points = some [0, 0, 0, 0, 0] from rfl]
  have hF : File.write_to File.new false =
      some ({ File.new with header := written_header File.new false },
        write_stream File.new false) := by
    unfold File.write_to
    rw [show number_of_points_by_return File.new.points = some [0, 0, 0, 0, 0] from rfl]
  obtain ⟨⟨hx, _, _⟩, hf⟩ := c7_auto_offsets File.new _ _ _ _ hT hF
  exact ⟨_, _, _, _, hT, hF, hx.trans rfl, hf.1.trans rfl⟩

end Las
